import Mathlib

/-!
# To-do list client (`script.js`): embedding and verified properties

The page script keeps three pieces of ambient state (`db`, `currentUserId`, the DOM) and
talks to two external services, an identity provider and a realtime document store.
The embedding below makes that state explicit in a `World` record, turns every handler
of the script into a function on `World`, and records every call made to the store in
`World.requests`.  What the external services answer is not decided by the script, so
each handler takes that answer as an argument (`Reply`, `InitOutcome`, the arguments of
the auth-state callback).

Modelling choices:
* strings are sequences of Unicode scalar values; every character `trim` looks at is a
  single UTF-16 code unit, so trimming agrees with the script on them;
* documents carry the fields of the data model with their types (`text` a string,
  `completed` a boolean); the script itself writes no other kind of document;
* the store is a list of documents, each tagged with its collection path; `Store.WF`
  states that ids are unique within a collection, and every session keeps it
  (`session_store_WF`);
* the SDK call `collection(db, path)` throws on a path it rejects.  At line 73 nothing
  catches that, so `setupRealtimeListener` models the check (`validCollectionPath`).
  In the three mutation handlers the call sits inside a `try`; there a rejected path
  has the effect of a faulted reply (error logged, nothing written), which the
  statements about successful requests exclude, and the check is not repeated;
* a handler runs to completion (no other event is interleaved while it awaits a reply).
-/

namespace TodoList

/-! ## Strings -/

/-- Code points removed by `String.prototype.trim`: ECMAScript WhiteSpace (TAB, VT, FF,
SP, NBSP, ZWNBSP and the Unicode space separators) and LineTerminator (LF, CR, LS, PS). -/
def isTrimChar (c : Char) : Bool :=
  let n := c.toNat
  n == 0x09 || n == 0x0A || n == 0x0B || n == 0x0C || n == 0x0D || n == 0x20 ||
  n == 0xA0 || n == 0x1680 || (0x2000 ≤ n && n ≤ 0x200A) || n == 0x2028 ||
  n == 0x2029 || n == 0x202F || n == 0x205F || n == 0x3000 || n == 0xFEFF

/-- The method `String.prototype.trim`: strip trim characters from both ends. -/
def trim (s : String) : String :=
  String.mk (((s.data.dropWhile isTrimChar).reverse.dropWhile isTrimChar).reverse)

/-- The template literal `artifacts/${appId}/users/${currentUserId}/todos` (script.js
lines 73, 132, 157, 177). -/
def todosPath (appId userId : String) : String :=
  "artifacts/" ++ appId ++ "/users/" ++ userId ++ "/todos"

/-- Whether a path contains `//`, on which the SDK throws. -/
def hasDoubleSlash : List Char → Bool
  | [] => false
  | c :: cs =>
    match cs with
    | [] => false
    | d :: _ => (c == '/' && d == '/') || hasDoubleSlash cs

/-- The method call `path.split('/')`. -/
def splitSlash : List Char → List (List Char)
  | [] => [[]]
  | c :: cs =>
    if c = '/' then [] :: splitSlash cs
    else
      match splitSlash cs with
      | seg :: rest => (c :: seg) :: rest
      | [] => [[c]]

/-- Whether the SDK call `collection(db, path)` accepts `path`: it throws when the path
contains `//`, and when the number of its non-empty segments is even (a document path
or no segment at all). -/
def validCollectionPath (path : String) : Bool :=
  !hasDoubleSlash path.data &&
    ((splitSlash path.data).filter fun seg => !seg.isEmpty).length % 2 == 1

/-- Lower-case hexadecimal digit of `n % 16`. -/
def hexDigit (n : Nat) : Char :=
  "0123456789abcdef".data.getD (n % 16) '0'

/-- The string returned by `crypto.randomUUID()` for the 128 random bits `bits`:
32 hexadecimal digits in groups 8-4-4-4-12 separated by hyphens. -/
def randomUUID (bits : Nat) : String :=
  String.mk ((List.range 36).map fun i =>
    if i = 8 ∨ i = 13 ∨ i = 18 ∨ i = 23 then '-'
    else
      let k := i - (if 23 < i then 4 else if 18 < i then 3 else if 13 < i then 2
                    else if 8 < i then 1 else 0)
      hexDigit (bits / 16 ^ (31 - k)))

/-! ## The external document store -/

/-- Fields of a todo document: `text`, `completed`, `createdAt` (a timestamp), as
written by the submit handler (lines 133-135). -/
structure TodoData where
  text : String
  completed : Bool
  createdAt : Nat
deriving DecidableEq

/-- A stored document: the collection it lives in, its store-assigned id, its fields. -/
structure Doc where
  path : String
  id : String
  data : TodoData
deriving DecidableEq

/-- The store content, in the order snapshots list it. -/
abbrev Store := List Doc

/-- What the store answers to one write: a fault (offline, permission denied, ...) or
none, and the id it assigns should the write create a document. -/
structure Reply where
  fault : Option String
  newId : String
deriving DecidableEq

/-- Whether the collection `path` holds a document with id `id`. -/
def Store.has (st : Store) (path id : String) : Bool :=
  st.any fun d => d.path == path && d.id == id

/-- Document ids are unique within a collection. -/
def Store.WF (st : Store) : Prop :=
  (st.map fun d => (d.path, d.id)).Nodup

instance (st : Store) : Decidable st.WF := by
  unfold Store.WF; infer_instance

/-- Store side of `addDoc`: create a document under the assigned id; the write carries
the precondition that no such document exists. -/
def addDoc (st : Store) (path : String) (data : TodoData) (r : Reply) : Except String Store :=
  match r.fault with
  | some msg => .error msg
  | none =>
    if st.has path r.newId then .error "already-exists"
    else .ok (st ++ [{ path := path, id := r.newId, data := data }])

/-- The partial update `{completed: c}` applied to the document `path`/`id` and to no
other. -/
def setCompleted (path id : String) (c : Bool) (d : Doc) : Doc :=
  if d.path = path ∧ d.id = id then { d with data := { d.data with completed := c } } else d

/-- Store side of `updateDoc(ref, {completed})`: partial update of a document, which
must exist. -/
def updateDoc (st : Store) (path id : String) (completed : Bool) (r : Reply) :
    Except String Store :=
  match r.fault with
  | some msg => .error msg
  | none =>
    if st.has path id then .ok (st.map (setCompleted path id completed))
    else .error "not-found"

/-- Store side of `deleteDoc(ref)`: remove the document; no precondition. -/
def deleteDoc (st : Store) (path id : String) (r : Reply) : Except String Store :=
  match r.fault with
  | some msg => .error msg
  | none => .ok (st.filter fun d => !(d.path == path && d.id == id))

/-- The snapshot of the unfiltered query on collection `path`. -/
def snapshotOf (st : Store) (path : String) : List Doc :=
  st.filter fun d => d.path == path

/-! ## Client state -/

/-- The object `{ id: doc.id, ...doc.data() }` built in the snapshot callback (line 86). -/
structure Todo where
  id : String
  text : String
  completed : Bool
  createdAt : Nat
deriving DecidableEq

/-- Line 86. -/
def todoOf (d : Doc) : Todo :=
  { id := d.id, text := d.data.text, completed := d.data.completed, createdAt := d.data.createdAt }

/-- A list item created by `addTodoToUI`: its `data-id` attribute, whether its class
list contains `completed`, its text, and the `todo.id` its two handlers close over. -/
structure TodoEl where
  dataId : String
  completed : Bool
  innerText : String
  todoId : String
deriving DecidableEq

/-- A call made to the store SDK. -/
inductive Request where
  | add (path : String) (data : TodoData)
  | update (path id : String) (completed : Bool)
  | delete (path id : String)
  | subscribe (path : String)
deriving DecidableEq

/-- The collection path a request addresses. -/
def Request.path : Request → String
  | .add p _ => p
  | .update p _ _ => p
  | .delete p _ => p
  | .subscribe p => p

/-- The sign-in call made by `initFirebase` (lines 33-37). -/
inductive SignIn where
  | customToken (token : String)
  | anonymously
deriving DecidableEq

/-- The script's module-level variables, the DOM nodes it touches, the store, and the
log of store calls and console messages. -/
structure World where
  appId : String
  initialAuthToken : Option String
  db : Bool
  auth : Bool
  signIn : Option SignIn
  authListener : Bool
  currentUserId : String
  inputValue : String
  userIdDisplay : String
  todosUL : List TodoEl
  listeners : List String
  store : Store
  requests : List Request
  console : List String
deriving DecidableEq

/-- What the page is loaded with: the optional globals `__app_id` and
`__initial_auth_token`, the initial text of the status element, the store content. -/
structure Env where
  appId : Option String
  initialAuthToken : Option String
  statusText : String
  store : Store

/-- Module evaluation (lines 6-20): nothing is set up yet, `currentUserId` is the
string `loading...`. -/
def pageLoad (env : Env) : World :=
  { appId := env.appId.getD "default-app-id"
    initialAuthToken := env.initialAuthToken
    db := false
    auth := false
    signIn := none
    authListener := false
    currentUserId := "loading..."
    inputValue := ""
    userIdDisplay := env.statusText
    todosUL := []
    listeners := []
    store := env.store
    requests := []
    console := [] }

/-! ## Handlers -/

/-- How far `initFirebase` gets before something throws. -/
inductive InitOutcome where
  | appThrows (msg : String)
  | firestoreThrows (msg : String)
  | authThrows (msg : String)
  | signInRejects (msg : String)
  | ok
deriving DecidableEq

/-- The catch block of `initFirebase` (lines 54-57). -/
def initFailed (w : World) (msg : String) : World :=
  { w with
    console := w.console ++ ["Error initializing Firebase: " ++ msg]
    userIdDisplay := "Authentication Error: " ++ msg }

/-- Lines 33-37: a truthy token selects custom-token sign-in. -/
def signInCall (token : Option String) : SignIn :=
  match token with
  | some t => if t ≠ "" then .customToken t else .anonymously
  | none => .anonymously

/-- The function `initFirebase` (lines 26-58). -/
def initFirebase (w : World) (o : InitOutcome) : World :=
  match o with
  | .appThrows msg => initFailed w msg
  | .firestoreThrows msg => initFailed w msg
  | .authThrows msg => initFailed { w with db := true } msg
  | .signInRejects msg =>
    initFailed { w with db := true, auth := true, signIn := some (signInCall w.initialAuthToken) } msg
  | .ok =>
    { w with
      db := true, auth := true, signIn := some (signInCall w.initialAuthToken)
      authListener := true }

/-- The function `setupRealtimeListener` up to the `onSnapshot` call (lines 64-79).
When `collection(db, path)` rejects the path (line 73) the exception leaves the
function, and the callback that called it, before `onSnapshot` is reached. -/
def setupRealtimeListener (w : World) : World :=
  if !w.db || w.currentUserId == "loading..." then
    { w with console := w.console ++ ["Firebase or user ID not ready yet for real-time listener."] }
  else
    let p := todosPath w.appId w.currentUserId
    if !validCollectionPath p then w
    else
      { w with listeners := w.listeners ++ [p], requests := w.requests ++ [Request.subscribe p] }

/-- The callback given to `onAuthStateChanged` (lines 40-52); `bits` is the randomness
`crypto.randomUUID()` draws. -/
def onAuthStateChangedCallback (w : World) (user : Option String) (bits : Nat) : World :=
  match user with
  | some uid =>
    setupRealtimeListener
      { w with currentUserId := uid, userIdDisplay := "User ID: " ++ uid }
  | none =>
    let id := randomUUID bits
    setupRealtimeListener
      { w with currentUserId := id, userIdDisplay := "User ID: " ++ id ++ " (anonymous)" }

/-- The element `addTodoToUI` creates for `todo` (lines 100-119). -/
def mkTodoEl (todo : Todo) : TodoEl :=
  let todoEl : TodoEl := { dataId := todo.id, completed := false, innerText := "", todoId := todo.id }
  let todoEl := if todo.completed then { todoEl with completed := true } else todoEl
  { todoEl with innerText := todo.text }

/-- The function `addTodoToUI` (lines 99-122). -/
def addTodoToUI (w : World) (todo : Todo) : World :=
  { w with todosUL := w.todosUL ++ [mkTodoEl todo] }

/-- The snapshot callback (lines 79-88). -/
def onSnapshotNext (w : World) (snapshot : List Doc) : World :=
  let w := { w with todosUL := [] }
  let w := if snapshot.isEmpty then
      { w with console := w.console ++ ["No todos found for this user."] }
    else w
  snapshot.foldl (fun w doc => addTodoToUI w (todoOf doc)) w

/-- The snapshot error callback (lines 89-92). -/
def onSnapshotError (w : World) (msg : String) : World :=
  { w with console := w.console ++ ["Error fetching todos in real-time: " ++ msg] }

/-- The function `updateTodoStatusInFirestore` (lines 150-164). -/
def updateTodoStatusInFirestore (w : World) (id : String) (completedStatus : Bool)
    (r : Reply) : World :=
  if !w.db || w.currentUserId == "loading..." then
    { w with console := w.console ++ ["Database or user ID not ready for update operation."] }
  else
    let p := todosPath w.appId w.currentUserId
    let w : World := { w with requests := w.requests ++ [Request.update p id completedStatus] }
    match updateDoc w.store p id completedStatus r with
    | .ok st => { w with store := st }
    | .error e => { w with console := w.console ++ ["Error updating document in Firestore: " ++ e] }

/-- The function `deleteTodoFromFirestore` (lines 170-182). -/
def deleteTodoFromFirestore (w : World) (id : String) (r : Reply) : World :=
  if !w.db || w.currentUserId == "loading..." then
    { w with console := w.console ++ ["Database or user ID not ready for delete operation."] }
  else
    let p := todosPath w.appId w.currentUserId
    let w : World := { w with requests := w.requests ++ [Request.delete p id] }
    match deleteDoc w.store p id r with
    | .ok st => { w with store := st }
    | .error e => { w with console := w.console ++ ["Error deleting document from Firestore: " ++ e] }

/-- The click handler of a list item (lines 110-113): toggle the class, then persist
whether the class list now contains `completed`. -/
def clickHandler (w : World) (el : TodoEl) (r : Reply) : TodoEl × World :=
  let el := { el with completed := !el.completed }
  (el, updateTodoStatusInFirestore w el.todoId el.completed r)

/-- The contextmenu handler of a list item (lines 116-119). -/
def contextmenuHandler (w : World) (el : TodoEl) (r : Reply) : World :=
  deleteTodoFromFirestore w el.todoId r

/-- The submit handler of the form (lines 125-143); `now` is `new Date()`.  With `db`
still undefined the call `collection(db, ...)` throws inside the `try`, before `addDoc`
is reached. -/
def submitHandler (w : World) (now : Nat) (r : Reply) : World :=
  let todoText := trim w.inputValue
  if todoText ≠ "" then
    if !w.db then
      { w with console := w.console ++
          ["Error adding document to Firestore: " ++
           "Expected first argument to collection() to be a CollectionReference, " ++
           "a DocumentReference or FirebaseFirestore"] }
    else
      let p := todosPath w.appId w.currentUserId
      let data : TodoData := { text := todoText, completed := false, createdAt := now }
      let w : World := { w with requests := w.requests ++ [Request.add p data] }
      match addDoc w.store p data r with
      | .ok st => { w with store := st, inputValue := "" }
      | .error e => { w with console := w.console ++ ["Error adding document to Firestore: " ++ e] }
  else w

/-! ## Sessions -/

/-- What can happen after `initFirebase` has run: the auth-state callback fires, the
`k`-th subscription delivers a snapshot or an error, the user types, submits, clicks
the `i`-th list item or opens its context menu. -/
inductive Event where
  | authStateChanged (user : Option String) (bits : Nat)
  | snapshot (k : Nat)
  | snapshotError (k : Nat) (msg : String)
  | input (value : String)
  | submit (now : Nat) (r : Reply)
  | click (i : Nat) (r : Reply)
  | contextmenu (i : Nat) (r : Reply)
deriving DecidableEq

/-- One event. -/
def step (w : World) : Event → World
  | .authStateChanged user bits =>
    if w.authListener then onAuthStateChangedCallback w user bits else w
  | .snapshot k =>
    match w.listeners[k]? with
    | some p => onSnapshotNext w (snapshotOf w.store p)
    | none => w
  | .snapshotError k msg =>
    match w.listeners[k]? with
    | some _ => onSnapshotError w msg
    | none => w
  | .input value => { w with inputValue := value }
  | .submit now r => submitHandler w now r
  | .click i r =>
    match w.todosUL[i]? with
    | some el =>
      let (el, w) := clickHandler w el r
      { w with todosUL := w.todosUL.set i el }
    | none => w
  | .contextmenu i r =>
    match w.todosUL[i]? with
    | some el => contextmenuHandler w el r
    | none => w

/-- A sequence of events. -/
def run (w : World) (evs : List Event) : World :=
  evs.foldl step w

/-- One page load: module evaluation, `window.onload`, then events. -/
def session (env : Env) (o : InitOutcome) (evs : List Event) : World :=
  run (initFirebase (pageLoad env) o) evs

/-- Number of auth-state callbacks among the events. -/
def authCount : List Event → Nat
  | [] => 0
  | .authStateChanged _ _ :: evs => authCount evs + 1
  | _ :: evs => authCount evs

/-- Whether the auth-state callback, should `e` be one, makes `u` the identity. -/
def Event.reportsIdentity (u : String) : Event → Bool
  | .authStateChanged (some uid) _ => uid == u
  | .authStateChanged none bits => randomUUID bits == u
  | _ => true

/-- The identity the auth-state callback installs. -/
def identityOf (user : Option String) (bits : Nat) : String :=
  match user with
  | some uid => uid
  | none => randomUUID bits

/-- The status text the auth-state callback displays. -/
def statusOf (user : Option String) (bits : Nat) : String :=
  match user with
  | some uid => "User ID: " ++ uid
  | none => "User ID: " ++ randomUUID bits ++ " (anonymous)"

/-- What a handler other than the auth-state callback may change: configuration, store
handle, listener registration, identity and subscriptions stay, and the requests it
adds all address the collection of the current identity. -/
def Quiet (w v : World) : Prop :=
  v.appId = w.appId ∧ v.db = w.db ∧ v.authListener = w.authListener
    ∧ v.currentUserId = w.currentUserId ∧ v.listeners = w.listeners
    ∧ ∃ new, v.requests = w.requests ++ new
        ∧ ∀ r ∈ new, r.path = todosPath w.appId w.currentUserId

/-- All requests address one and the same collection path. -/
def SamePath (reqs : List Request) : Prop :=
  ∀ r1 ∈ reqs, ∀ r2 ∈ reqs, r1.path = r2.path

instance (reqs : List Request) : Decidable (SamePath reqs) := by
  unfold SamePath; infer_instance

/-! ## Sample sessions -/

/-- A page loaded with no globals defined and an empty store. -/
def emptyEnv : Env :=
  { appId := none, initialAuthToken := none, statusText := "", store := [] }

/-- The session in which user `alice` is signed in and has typed `value`. -/
def aliceWorld (value : String) : World :=
  session emptyEnv .ok [.authStateChanged (some "alice") 0, .input value]

/-- The record user `alice` gets by submitting `Buy milk`. -/
def milkDoc : Doc :=
  { path := "artifacts/default-app-id/users/alice/todos", id := "d1"
    data := { text := "Buy milk", completed := false, createdAt := 7 } }

/-- The session in which `alice` has submitted `Buy milk` and received the snapshot. -/
def milkWorld : World :=
  session emptyEnv .ok
    [.authStateChanged (some "alice") 0, .input " Buy milk ", .submit 7 ⟨none, "d1"⟩, .snapshot 0]

/-! ## Rendering -/

theorem mkTodoEl_eq (todo : Todo) :
    mkTodoEl todo =
      { dataId := todo.id, completed := todo.completed, innerText := todo.text,
        todoId := todo.id } := by
  cases h : todo.completed <;> simp [mkTodoEl, h]

theorem foldl_addTodoToUI_todosUL (snapshot : List Doc) (w : World) :
    (snapshot.foldl (fun w doc => addTodoToUI w (todoOf doc)) w).todosUL =
      w.todosUL ++ snapshot.map fun d => mkTodoEl (todoOf d) := by
  induction snapshot generalizing w with
  | nil => simp
  | cons d ds ih =>
    rw [List.foldl_cons, ih]
    simp [addTodoToUI]

/-- C9: after a snapshot is delivered the rendered list is exactly one element per
snapshot record, in snapshot order, carrying the record id (as attribute and in its
handlers), the record text, and the completed marker iff the record is completed; the
prior list plays no part in the result. -/
theorem snapshot_rerenders_list (w : World) (snapshot : List Doc) :
    (onSnapshotNext w snapshot).todosUL =
        snapshot.map (fun d =>
          { dataId := d.id, completed := d.data.completed, innerText := d.data.text,
            todoId := d.id })
      ∧ ∀ w2 : World, (onSnapshotNext w2 snapshot).todosUL = (onSnapshotNext w snapshot).todosUL := by
  have key : ∀ v : World, (onSnapshotNext v snapshot).todosUL =
      snapshot.map (fun d =>
        ({ dataId := d.id, completed := d.data.completed, innerText := d.data.text,
           todoId := d.id } : TodoEl)) := by
    intro v
    unfold onSnapshotNext
    rw [foldl_addTodoToUI_todosUL]
    have h0 : (if snapshot.isEmpty = true then
        ({ ({ v with todosUL := [] } : World) with
            console := ({ v with todosUL := [] } : World).console ++
              ["No todos found for this user."] } : World)
        else ({ v with todosUL := [] } : World)).todosUL = [] := by
      split <;> rfl
    rw [h0, List.nil_append]
    apply List.map_congr_left
    intro d _
    rw [mkTodoEl_eq]
    rfl
  exact ⟨key w, fun w2 => (key w2).trans (key w).symm⟩

/-! ## Creating -/

theorem trim_of_all_trimChar (s : String) (h : s.data.all isTrimChar = true) :
    trim s = "" := by
  have h1 : s.data.dropWhile isTrimChar = [] := by
    rw [List.dropWhile_eq_nil_iff]
    intro c hc
    exact List.all_eq_true.mp h c hc
  unfold trim
  rw [h1]
  rfl

/-- C2: when the input is empty or consists only of characters that trim removes, the
submit handler changes nothing at all: no store request is issued, the store is
unchanged, and the input field keeps its value. -/
theorem submit_blank_is_noop (w : World) (now : Nat) (r : Reply)
    (h : w.inputValue.data.all isTrimChar = true) :
    submitHandler w now r = w := by
  unfold submitHandler
  simp [trim_of_all_trimChar _ h]

theorem submit_blank_is_noop_witness :
    (aliceWorld " \t\n ").inputValue.data.all isTrimChar = true ∧
      submitHandler (aliceWorld " \t\n ") 3 ⟨none, "d1"⟩ = aliceWorld " \t\n " :=
  ⟨by decide, submit_blank_is_noop (aliceWorld " \t\n ") 3 ⟨none, "d1"⟩ (by decide)⟩

theorem addDoc_ok {st st1 : Store} {path : String} {data : TodoData} {r : Reply}
    (h : addDoc st path data r = .ok st1) :
    st.has path r.newId = false ∧ st1 = st ++ [{ path := path, id := r.newId, data := data }] := by
  unfold addDoc at h
  split at h
  · cases h
  · split at h
    · cases h
    · rename_i hhas
      cases h
      exact ⟨by simpa using hhas, rfl⟩

theorem not_mem_snapshot_of_has_false {st : Store} {path id : String}
    (h : st.has path id = false) : ∀ d ∈ snapshotOf st path, d.id ≠ id := by
  intro d hd hid
  simp only [snapshotOf, List.mem_filter, beq_iff_eq] at hd
  have : st.has path id = true := by
    simp only [Store.has, List.any_eq_true, Bool.and_eq_true, beq_iff_eq]
    exact ⟨d, hd.1, hd.2, hid⟩
  rw [h] at this
  cases this

/-- C1: with the store handle initialised, an input whose trimmed form `T` is non-empty
and the add request succeeding, the submit handler issues exactly one request, an add
on the current user's todos collection carrying `text = T`, `completed = false`; the
store afterwards is the previous store plus that one record under a new id (so the
user's collection has exactly one more record and every earlier record is unchanged),
and the input field is cleared. -/
theorem submit_creates_one_record (w : World) (now : Nat) (r : Reply) (st : Store)
    (hdb : w.db = true) (htext : trim w.inputValue ≠ "")
    (hok : addDoc w.store (todosPath w.appId w.currentUserId)
      { text := trim w.inputValue, completed := false, createdAt := now } r = .ok st) :
    (submitHandler w now r).requests =
        w.requests ++ [Request.add (todosPath w.appId w.currentUserId)
          { text := trim w.inputValue, completed := false, createdAt := now }]
      ∧ (submitHandler w now r).store =
        w.store ++ [{ path := todosPath w.appId w.currentUserId, id := r.newId,
                      data := { text := trim w.inputValue, completed := false, createdAt := now } }]
      ∧ snapshotOf (submitHandler w now r).store (todosPath w.appId w.currentUserId) =
        snapshotOf w.store (todosPath w.appId w.currentUserId) ++
          [{ path := todosPath w.appId w.currentUserId, id := r.newId,
             data := { text := trim w.inputValue, completed := false, createdAt := now } }]
      ∧ (∀ d ∈ snapshotOf w.store (todosPath w.appId w.currentUserId), d.id ≠ r.newId)
      ∧ (submitHandler w now r).inputValue = "" := by
  obtain ⟨hfresh, hst⟩ := addDoc_ok hok
  have hrun : submitHandler w now r =
      { w with
        requests := w.requests ++ [Request.add (todosPath w.appId w.currentUserId)
          { text := trim w.inputValue, completed := false, createdAt := now }]
        store := st, inputValue := "" } := by
    unfold submitHandler
    simp only [htext, hdb, ne_eq, not_false_eq_true, if_true, Bool.not_true, if_false,
      Bool.false_eq_true]
    rw [hok]
  rw [hrun]
  refine ⟨rfl, hst, ?_, not_mem_snapshot_of_has_false hfresh, rfl⟩
  subst hst
  simp [snapshotOf, List.filter_append]

theorem submit_creates_one_record_witness :
    (aliceWorld " Buy milk ").db = true ∧ trim (aliceWorld " Buy milk ").inputValue = "Buy milk" ∧
      (submitHandler (aliceWorld " Buy milk ") 7 ⟨none, "d1"⟩).requests =
        (aliceWorld " Buy milk ").requests ++
          [Request.add "artifacts/default-app-id/users/alice/todos" ⟨"Buy milk", false, 7⟩] ∧
      (submitHandler (aliceWorld " Buy milk ") 7 ⟨none, "d1"⟩).inputValue = "" :=
  have h := submit_creates_one_record (aliceWorld " Buy milk ") 7 ⟨none, "d1"⟩
    [⟨"artifacts/default-app-id/users/alice/todos", "d1", ⟨"Buy milk", false, 7⟩⟩]
    (by decide) (by decide) rfl
  ⟨by decide, by decide, h.1, h.2.2.2.2⟩

/-! ## The not-ready guard -/

theorem update_not_ready_no_request (w : World) (id : String) (c : Bool) (r : Reply)
    (h : w.db = false ∨ w.currentUserId = "loading...") :
    (updateTodoStatusInFirestore w id c r).requests = w.requests
      ∧ (updateTodoStatusInFirestore w id c r).store = w.store := by
  unfold updateTodoStatusInFirestore
  rcases h with h | h <;> simp [h]

theorem delete_not_ready_no_request (w : World) (id : String) (r : Reply)
    (h : w.db = false ∨ w.currentUserId = "loading...") :
    (deleteTodoFromFirestore w id r).requests = w.requests
      ∧ (deleteTodoFromFirestore w id r).store = w.store := by
  unfold deleteTodoFromFirestore
  rcases h with h | h <;> simp [h]

theorem submit_without_db_no_request (w : World) (now : Nat) (r : Reply) (h : w.db = false) :
    (submitHandler w now r).requests = w.requests
      ∧ (submitHandler w now r).store = w.store := by
  unfold submitHandler
  by_cases ht : trim w.inputValue = "" <;> simp [h, ht]

/-- C3: the create path has no identity guard.  In the session where the form is
submitted after `initFirebase` has set up the store handle and before the auth-state
callback has fired, the identity is still `loading...` and the submit handler issues an
add request (which the store accepts) on the collection of the pseudo-user
`loading...`. -/
theorem submit_while_loading_issues_add :
    (session emptyEnv .ok [.input "Buy milk"]).db = true
      ∧ (session emptyEnv .ok [.input "Buy milk"]).currentUserId = "loading..."
      ∧ (session emptyEnv .ok [.input "Buy milk", .submit 7 ⟨none, "d1"⟩]).requests =
        [Request.add "artifacts/default-app-id/users/loading.../todos" ⟨"Buy milk", false, 7⟩]
      ∧ (session emptyEnv .ok [.input "Buy milk", .submit 7 ⟨none, "d1"⟩]).store =
        [⟨"artifacts/default-app-id/users/loading.../todos", "d1", ⟨"Buy milk", false, 7⟩⟩] := by
  decide

/-! ## Store lemmas -/

theorem Store.WF.eq_of_key {st : Store} (hwf : st.WF) {d e : Doc} (hd : d ∈ st) (he : e ∈ st)
    (hp : d.path = e.path) (hi : d.id = e.id) : d = e :=
  List.inj_on_of_nodup_map hwf hd he (by simp [hp, hi])

theorem mem_snapshotOf {st : Store} {path : String} {d : Doc} :
    d ∈ snapshotOf st path ↔ d ∈ st ∧ d.path = path := by
  simp [snapshotOf]

theorem Store.has_of_mem {st : Store} {d : Doc} (hd : d ∈ st) : st.has d.path d.id = true := by
  simp only [Store.has, List.any_eq_true, Bool.and_eq_true, beq_iff_eq]
  exact ⟨d, hd, rfl, rfl⟩

theorem updateDoc_ok {st : Store} {path id : String} (c : Bool) {r : Reply}
    (hr : r.fault = none) (hhas : st.has path id = true) :
    updateDoc st path id c r = .ok (st.map (setCompleted path id c)) := by
  unfold updateDoc
  simp only [hr, hhas, if_true]

theorem has_map_setCompleted (st : Store) (path id : String) (c : Bool) (p i : String) :
    Store.has (st.map (setCompleted path id c)) p i = st.has p i := by
  simp only [Store.has, List.any_map]
  congr 1
  funext d
  simp only [Function.comp, setCompleted]
  split <;> rfl

theorem map_setCompleted_twice (st : Store) (path id : String) (c1 c2 : Bool) :
    (st.map (setCompleted path id c1)).map (setCompleted path id c2) =
      st.map (setCompleted path id c2) := by
  rw [List.map_map]
  apply List.map_congr_left
  intro d _
  simp only [Function.comp, setCompleted]
  split <;> simp_all

theorem map_setCompleted_self {st : Store} (hwf : st.WF) {d : Doc} (hd : d ∈ st)
    {p : String} (hp : d.path = p) :
    st.map (setCompleted p d.id d.data.completed) = st := by
  subst hp
  conv_rhs => rw [← List.map_id st]
  apply List.map_congr_left
  intro e he
  simp only [setCompleted, id]
  split
  · rename_i h
    have : e = d := hwf.eq_of_key he hd h.1 h.2
    subst this
    rfl
  · rfl

theorem map_setCompleted_eq {st : Store} (hwf : st.WF) {d : Doc} (hd : d ∈ st)
    {p : String} (hp : d.path = p) (c : Bool) :
    st.map (setCompleted p d.id c) =
      st.map fun e => if e = d then { d with data := { d.data with completed := c } } else e := by
  subst hp
  apply List.map_congr_left
  intro e he
  simp only [setCompleted]
  by_cases h : e = d
  · subst h
    simp
  · have : ¬ (e.path = d.path ∧ e.id = d.id) := fun hk => h (hwf.eq_of_key he hd hk.1 hk.2)
    simp [h, this]

theorem filter_key_eq_erase {st : Store} (hwf : st.WF) {d : Doc} (hd : d ∈ st)
    {p : String} (hp : d.path = p) :
    st.filter (fun e => !(e.path == p && e.id == d.id)) = st.erase d := by
  subst hp
  induction st with
  | nil => cases hd
  | cons e es ih =>
    have hnd : (e.path, e.id) ∉ es.map (fun x => (x.path, x.id)) ∧ Store.WF es := by
      simpa [Store.WF] using hwf
    by_cases hed : e = d
    · subst hed
      have hrest : es.filter (fun x => !(x.path == e.path && x.id == e.id)) = es := by
        rw [List.filter_eq_self]
        intro x hx
        have : ¬ (x.path = e.path ∧ x.id = e.id) := by
          intro hk
          apply hnd.1
          rw [List.mem_map]
          exact ⟨x, hx, by simp [hk.1, hk.2]⟩
        by_cases h1 : x.path = e.path <;> by_cases h2 : x.id = e.id <;> simp_all
      rw [List.filter_cons, hrest, List.erase_cons_head]
      simp
    · have hd2 : d ∈ es := by
        rcases List.mem_cons.mp hd with h | h
        · exact absurd h.symm hed
        · exact h
      have hkey : ¬ (e.path = d.path ∧ e.id = d.id) := by
        intro hk
        apply hnd.1
        rw [List.mem_map]
        exact ⟨d, hd2, by simp [hk.1, hk.2]⟩
      have hkeep : (!(e.path == d.path && e.id == d.id)) = true := by
        by_cases h1 : e.path = d.path <;> by_cases h2 : e.id = d.id <;> simp_all
      rw [List.filter_cons, if_pos hkeep, ih hnd.2 hd2, List.erase_cons_tail]
      simpa using hed

theorem snapshotOf_WF {st : Store} (hwf : st.WF) (path : String) : Store.WF (snapshotOf st path) :=
  List.Nodup.sublist ((List.filter_sublist st).map _) hwf

/-! ## Toggling -/

theorem update_ready (w : World) (id : String) (c : Bool) (r : Reply)
    (hdb : w.db = true) (hid : w.currentUserId ≠ "loading...") (hr : r.fault = none)
    (hhas : w.store.has (todosPath w.appId w.currentUserId) id = true) :
    updateTodoStatusInFirestore w id c r =
      { w with
        requests := w.requests ++ [Request.update (todosPath w.appId w.currentUserId) id c]
        store := w.store.map (setCompleted (todosPath w.appId w.currentUserId) id c) } := by
  unfold updateTodoStatusInFirestore
  simp only [hdb, hid, Bool.not_true, Bool.false_or, beq_iff_eq, if_false]
  rw [updateDoc_ok c hr hhas]

/-- C4: for a record stored in the current user's collection and the element
`addTodoToUI` creates for it, the first click issues an update carrying the flipped
`completed` value and the store then holds the record with only that field flipped;
a second click on the same element issues an update carrying the original value, after
which the store is exactly the store before the two clicks: the record has its
original `completed` value, its other fields and all other records are unchanged.
(Both updates succeed: the session is ready and the store reports no fault.) -/
theorem toggle_twice_restores (w : World) (d : Doc) (r1 r2 : Reply)
    (hdb : w.db = true) (hid : w.currentUserId ≠ "loading...") (hwf : w.store.WF)
    (hd : d ∈ snapshotOf w.store (todosPath w.appId w.currentUserId))
    (h1 : r1.fault = none) (h2 : r2.fault = none) :
    (clickHandler w (mkTodoEl (todoOf d)) r1).2.requests =
        w.requests ++
          [Request.update (todosPath w.appId w.currentUserId) d.id (!d.data.completed)]
      ∧ (clickHandler w (mkTodoEl (todoOf d)) r1).2.store =
        w.store.map (fun e =>
          if e = d then { d with data := { d.data with completed := !d.data.completed } } else e)
      ∧ (clickHandler (clickHandler w (mkTodoEl (todoOf d)) r1).2
          (clickHandler w (mkTodoEl (todoOf d)) r1).1 r2).2.requests =
        w.requests ++
          [Request.update (todosPath w.appId w.currentUserId) d.id (!d.data.completed),
           Request.update (todosPath w.appId w.currentUserId) d.id d.data.completed]
      ∧ (clickHandler (clickHandler w (mkTodoEl (todoOf d)) r1).2
          (clickHandler w (mkTodoEl (todoOf d)) r1).1 r2).2.store = w.store
      ∧ (clickHandler (clickHandler w (mkTodoEl (todoOf d)) r1).2
          (clickHandler w (mkTodoEl (todoOf d)) r1).1 r2).1 = mkTodoEl (todoOf d) := by
  obtain ⟨hmem, hpath⟩ := mem_snapshotOf.mp hd
  have hhas : w.store.has (todosPath w.appId w.currentUserId) d.id = true := by
    rw [← hpath]
    exact Store.has_of_mem hmem
  have hc1 : clickHandler w (mkTodoEl (todoOf d)) r1 =
      ({ dataId := d.id, completed := !d.data.completed, innerText := d.data.text,
         todoId := d.id },
       { w with
         requests := w.requests ++
           [Request.update (todosPath w.appId w.currentUserId) d.id (!d.data.completed)]
         store := w.store.map
           (setCompleted (todosPath w.appId w.currentUserId) d.id (!d.data.completed)) }) := by
    unfold clickHandler
    rw [mkTodoEl_eq]
    simp only [todoOf]
    rw [update_ready w d.id (!d.data.completed) r1 hdb hid h1 hhas]
  rw [hc1]
  have hc2 : clickHandler
      { w with
        requests := w.requests ++
          [Request.update (todosPath w.appId w.currentUserId) d.id (!d.data.completed)]
        store := w.store.map
          (setCompleted (todosPath w.appId w.currentUserId) d.id (!d.data.completed)) }
      { dataId := d.id, completed := !d.data.completed, innerText := d.data.text,
        todoId := d.id } r2 =
      (mkTodoEl (todoOf d),
       { w with
         requests := w.requests ++
           [Request.update (todosPath w.appId w.currentUserId) d.id (!d.data.completed),
            Request.update (todosPath w.appId w.currentUserId) d.id d.data.completed]
         store := w.store }) := by
    unfold clickHandler
    rw [mkTodoEl_eq]
    simp only [todoOf, Bool.not_not]
    have hup := update_ready
      { w with
        requests := w.requests ++
          [Request.update (todosPath w.appId w.currentUserId) d.id (!d.data.completed)]
        store := w.store.map
          (setCompleted (todosPath w.appId w.currentUserId) d.id (!d.data.completed)) }
      d.id d.data.completed r2 hdb hid h2
      (by rw [has_map_setCompleted]; exact hhas)
    rw [hup]
    simp only [map_setCompleted_twice, List.append_assoc, List.singleton_append]
    rw [map_setCompleted_self hwf hmem hpath]
  rw [hc2]
  refine ⟨rfl, ?_, rfl, rfl, rfl⟩
  exact map_setCompleted_eq hwf hmem hpath _

/-! ## Deleting -/

theorem delete_ready (w : World) (id : String) (r : Reply)
    (hdb : w.db = true) (hid : w.currentUserId ≠ "loading...") (hr : r.fault = none) :
    deleteTodoFromFirestore w id r =
      { w with
        requests := w.requests ++ [Request.delete (todosPath w.appId w.currentUserId) id]
        store := w.store.filter fun e =>
          !(e.path == todosPath w.appId w.currentUserId && e.id == id) } := by
  unfold deleteTodoFromFirestore deleteDoc
  simp only [hdb, hid, hr, Bool.not_true, Bool.false_or, beq_iff_eq, if_false]

theorem snapshotOf_filter_key (st : Store) (path id : String) :
    snapshotOf (st.filter fun e => !(e.path == path && e.id == id)) path =
      (snapshotOf st path).filter fun e => !(e.path == path && e.id == id) := by
  simp only [snapshotOf, List.filter_filter]
  congr 1
  funext e
  exact Bool.and_comm _ _

/-- C5: in a ready session, for a record `d` of the current user's collection, the
context-menu handler of the element rendered for `d` calls `deleteTodoFromFirestore`
with the id of `d`; when the store reports no fault this issues one delete request
and the store afterwards is the previous store with `d` erased and nothing else
changed: the user's snapshot is the previous snapshot without `d`, has one record
fewer, and contains no record with that id. -/
theorem delete_removes_exactly_that_record (w : World) (d : Doc) (r : Reply)
    (hdb : w.db = true) (hid : w.currentUserId ≠ "loading...") (hwf : w.store.WF)
    (hd : d ∈ snapshotOf w.store (todosPath w.appId w.currentUserId))
    (hr : r.fault = none) :
    contextmenuHandler w (mkTodoEl (todoOf d)) r = deleteTodoFromFirestore w d.id r
      ∧ (deleteTodoFromFirestore w d.id r).requests =
        w.requests ++ [Request.delete (todosPath w.appId w.currentUserId) d.id]
      ∧ (deleteTodoFromFirestore w d.id r).store = w.store.erase d
      ∧ snapshotOf (deleteTodoFromFirestore w d.id r).store (todosPath w.appId w.currentUserId) =
        (snapshotOf w.store (todosPath w.appId w.currentUserId)).erase d
      ∧ (∀ e ∈ snapshotOf (deleteTodoFromFirestore w d.id r).store
            (todosPath w.appId w.currentUserId), e.id ≠ d.id)
      ∧ (snapshotOf (deleteTodoFromFirestore w d.id r).store
            (todosPath w.appId w.currentUserId)).length + 1 =
        (snapshotOf w.store (todosPath w.appId w.currentUserId)).length := by
  obtain ⟨hmem, hpath⟩ := mem_snapshotOf.mp hd
  have hsnap : snapshotOf (deleteTodoFromFirestore w d.id r).store
      (todosPath w.appId w.currentUserId) =
      (snapshotOf w.store (todosPath w.appId w.currentUserId)).erase d := by
    rw [delete_ready w d.id r hdb hid hr]
    show snapshotOf (w.store.filter _) _ = _
    rw [snapshotOf_filter_key]
    exact filter_key_eq_erase (snapshotOf_WF hwf _) hd hpath
  refine ⟨?_, ?_, ?_, hsnap, ?_, ?_⟩
  · unfold contextmenuHandler
    rw [mkTodoEl_eq]
    rfl
  · rw [delete_ready w d.id r hdb hid hr]
  · rw [delete_ready w d.id r hdb hid hr]
    exact filter_key_eq_erase hwf hmem hpath
  · intro e he heq
    rw [delete_ready w d.id r hdb hid hr] at he
    have he2 : e ∈ snapshotOf (w.store.filter fun e =>
        !(e.path == todosPath w.appId w.currentUserId && e.id == d.id))
        (todosPath w.appId w.currentUserId) := he
    simp only [snapshotOf, List.mem_filter, beq_iff_eq] at he2
    simp [he2.2, heq] at he2
  · rw [hsnap, List.length_erase_of_mem hd]
    have : 0 < (snapshotOf w.store (todosPath w.appId w.currentUserId)).length :=
      List.length_pos_of_mem hd
    omega

theorem toggle_twice_restores_witness :
    milkWorld.store = [milkDoc]
      ∧ (clickHandler milkWorld (mkTodoEl (todoOf milkDoc)) ⟨none, ""⟩).2.store =
        [{ milkDoc with data := { milkDoc.data with completed := true } }]
      ∧ (clickHandler (clickHandler milkWorld (mkTodoEl (todoOf milkDoc)) ⟨none, ""⟩).2
          (clickHandler milkWorld (mkTodoEl (todoOf milkDoc)) ⟨none, ""⟩).1 ⟨none, ""⟩).2.store =
        milkWorld.store :=
  have h := toggle_twice_restores milkWorld milkDoc ⟨none, ""⟩ ⟨none, ""⟩
    (by decide) (by decide) (by decide) (by decide) rfl rfl
  ⟨by decide, by decide, h.2.2.2.1⟩

theorem delete_removes_exactly_that_record_witness :
    milkDoc ∈ snapshotOf milkWorld.store (todosPath milkWorld.appId milkWorld.currentUserId)
      ∧ (deleteTodoFromFirestore milkWorld milkDoc.id ⟨none, ""⟩).store = milkWorld.store.erase milkDoc
      ∧ (deleteTodoFromFirestore milkWorld milkDoc.id ⟨none, ""⟩).store = [] :=
  have h := delete_removes_exactly_that_record milkWorld milkDoc ⟨none, ""⟩
    (by decide) (by decide) (by decide) (by decide) rfl
  ⟨by decide, h.2.2.1, by decide⟩

/-! ## Path isolation -/

theorem todosPath_injective (appId : String) {a b : String}
    (h : todosPath appId a = todosPath appId b) : a = b := by
  have hd := congrArg String.data h
  simp only [todosPath, String.data_append, List.append_assoc, List.append_cancel_left_eq,
    List.append_cancel_right_eq] at hd
  exact String.ext hd

theorem submitHandler_store (w : World) (now : Nat) (r : Reply) :
    (submitHandler w now r).store = w.store
      ∨ (submitHandler w now r).store =
        w.store ++ [{ path := todosPath w.appId w.currentUserId, id := r.newId,
                      data := { text := trim w.inputValue, completed := false, createdAt := now } }] := by
  unfold submitHandler
  by_cases ht : trim w.inputValue = ""
  · simp [ht]
  · by_cases hdb : w.db = true
    · simp only [ht, hdb, ne_eq, not_false_eq_true, if_true, Bool.not_true, if_false,
        Bool.false_eq_true]
      cases hadd : addDoc w.store (todosPath w.appId w.currentUserId)
          { text := trim w.inputValue, completed := false, createdAt := now } r with
      | error e => exact Or.inl rfl
      | ok st => exact Or.inr (addDoc_ok hadd).2
    · simp [ht, hdb]

/-- C6: for one namespace and two different identities the two collection paths
differ; whatever the submit handler does under the first identity, the snapshot of the
second identity's collection is unchanged, and no record the handler added to the
store appears in it; the subscription opened under the second identity, if one is
opened, reads the second path. -/
theorem identities_are_isolated (w : World) (b : String) (now : Nat) (r : Reply)
    (hab : w.currentUserId ≠ b) :
    todosPath w.appId w.currentUserId ≠ todosPath w.appId b
      ∧ snapshotOf (submitHandler w now r).store (todosPath w.appId b) =
        snapshotOf w.store (todosPath w.appId b)
      ∧ (∀ d ∈ (submitHandler w now r).store, d ∉ w.store →
          d.path = todosPath w.appId w.currentUserId
            ∧ d ∉ snapshotOf (submitHandler w now r).store (todosPath w.appId b))
      ∧ ∀ v : World, v.appId = w.appId → v.currentUserId = b →
          (setupRealtimeListener v).listeners = v.listeners
            ∨ (setupRealtimeListener v).listeners = v.listeners ++ [todosPath w.appId b] := by
  have hne : todosPath w.appId w.currentUserId ≠ todosPath w.appId b :=
    fun h => hab (todosPath_injective w.appId h)
  refine ⟨hne, ?_, ?_, ?_⟩
  · rcases submitHandler_store w now r with h | h
    · rw [h]
    · rw [h]
      simp [snapshotOf, List.filter_append, hne]
  · intro d hd hnew
    rcases submitHandler_store w now r with h | h
    · rw [h] at hd
      exact absurd hd hnew
    · rw [h] at hd
      rcases List.mem_append.mp hd with hd | hd
      · exact absurd hd hnew
      · have hd2 : d = _ := List.mem_singleton.mp hd
        subst hd2
        refine ⟨rfl, ?_⟩
        intro hmem
        exact hne (mem_snapshotOf.mp hmem).2
  · intro v hv hb
    unfold setupRealtimeListener
    split
    · exact Or.inl rfl
    · dsimp only
      split
      · exact Or.inl rfl
      · exact Or.inr (by rw [← hv, ← hb])

theorem identities_are_isolated_witness :
    (aliceWorld " Buy milk ").currentUserId ≠ "bob"
      ∧ (submitHandler (aliceWorld " Buy milk ") 7 ⟨none, "d1"⟩).store = [milkDoc]
      ∧ snapshotOf (submitHandler (aliceWorld " Buy milk ") 7 ⟨none, "d1"⟩).store
          (todosPath (aliceWorld " Buy milk ").appId "bob") =
        snapshotOf (aliceWorld " Buy milk ").store (todosPath (aliceWorld " Buy milk ").appId "bob") :=
  ⟨by decide, by decide,
    (identities_are_isolated (aliceWorld " Buy milk ") "bob" 7 ⟨none, "d1"⟩ (by decide)).2.1⟩

/-! ## Sessions: what each handler may change -/

theorem Quiet.refl (w : World) : Quiet w w :=
  ⟨rfl, rfl, rfl, rfl, rfl, [], by simp, by simp⟩

theorem Quiet.of_one (w v : World) (req : Request)
    (h1 : v.appId = w.appId) (h2 : v.db = w.db) (h3 : v.authListener = w.authListener)
    (h4 : v.currentUserId = w.currentUserId) (h5 : v.listeners = w.listeners)
    (h6 : v.requests = w.requests ++ [req])
    (h7 : req.path = todosPath w.appId w.currentUserId) : Quiet w v :=
  ⟨h1, h2, h3, h4, h5, [req], h6, by simpa using h7⟩

theorem foldl_addTodoToUI_eq (snapshot : List Doc) (w : World) :
    snapshot.foldl (fun w doc => addTodoToUI w (todoOf doc)) w =
      { w with todosUL := w.todosUL ++ snapshot.map fun d => mkTodoEl (todoOf d) } := by
  induction snapshot generalizing w with
  | nil => simp
  | cons d ds ih =>
    rw [List.foldl_cons, ih]
    simp [addTodoToUI]

theorem onSnapshotNext_quiet (w : World) (snapshot : List Doc) :
    Quiet w (onSnapshotNext w snapshot) := by
  unfold onSnapshotNext
  rw [foldl_addTodoToUI_eq]
  split <;> exact ⟨rfl, rfl, rfl, rfl, rfl, [], by simp, by simp⟩

theorem update_quiet (w : World) (id : String) (c : Bool) (r : Reply) :
    Quiet w (updateTodoStatusInFirestore w id c r) := by
  unfold updateTodoStatusInFirestore
  split
  · exact ⟨rfl, rfl, rfl, rfl, rfl, [], by simp, by simp⟩
  · dsimp only
    split <;> exact Quiet.of_one _ _ _ rfl rfl rfl rfl rfl rfl rfl

theorem delete_quiet (w : World) (id : String) (r : Reply) :
    Quiet w (deleteTodoFromFirestore w id r) := by
  unfold deleteTodoFromFirestore
  split
  · exact ⟨rfl, rfl, rfl, rfl, rfl, [], by simp, by simp⟩
  · dsimp only
    split <;> exact Quiet.of_one _ _ _ rfl rfl rfl rfl rfl rfl rfl

theorem submit_quiet (w : World) (now : Nat) (r : Reply) :
    Quiet w (submitHandler w now r) := by
  unfold submitHandler
  dsimp only
  split
  · split
    · exact ⟨rfl, rfl, rfl, rfl, rfl, [], by simp, by simp⟩
    · split <;> exact Quiet.of_one _ _ _ rfl rfl rfl rfl rfl rfl rfl
  · exact Quiet.refl w

theorem step_quiet (w : World) (e : Event) (h : ∀ user bits, e ≠ .authStateChanged user bits) :
    Quiet w (step w e) := by
  cases e with
  | authStateChanged user bits => exact absurd rfl (h user bits)
  | snapshot k =>
    simp only [step]
    split
    · exact onSnapshotNext_quiet w _
    · exact Quiet.refl w
  | snapshotError k msg =>
    simp only [step]
    split
    · exact ⟨rfl, rfl, rfl, rfl, rfl, [], by simp [onSnapshotError], by simp⟩
    · exact Quiet.refl w
  | input value => exact ⟨rfl, rfl, rfl, rfl, rfl, [], by simp [step], by simp⟩
  | submit now r => exact submit_quiet w now r
  | click i r =>
    simp only [step]
    split
    · rename_i el _
      obtain ⟨h1, h2, h3, h4, h5, new, h6, h7⟩ :=
        update_quiet w el.todoId (!el.completed) r
      exact ⟨h1, h2, h3, h4, h5, new, h6, h7⟩
    · exact Quiet.refl w
  | contextmenu i r =>
    simp only [step]
    split
    · exact delete_quiet w _ r
    · exact Quiet.refl w

theorem randomUUID_ne_loading (bits : Nat) : randomUUID bits ≠ "loading..." := by
  intro h
  have hlen := congrArg String.length h
  simp [randomUUID, String.length] at hlen

theorem onAuthStateChangedCallback_eq (w : World) (user : Option String) (bits : Nat) :
    onAuthStateChangedCallback w user bits =
      setupRealtimeListener
        { w with
          currentUserId := identityOf user bits
          userIdDisplay := statusOf user bits } := by
  cases user <;> rfl

theorem setupRealtimeListener_ready (w : World) (hdb : w.db = true)
    (hid : w.currentUserId ≠ "loading...")
    (hp : validCollectionPath (todosPath w.appId w.currentUserId) = true) :
    setupRealtimeListener w =
      { w with
        listeners := w.listeners ++ [todosPath w.appId w.currentUserId]
        requests := w.requests ++ [Request.subscribe (todosPath w.appId w.currentUserId)] } := by
  unfold setupRealtimeListener
  simp [hdb, hid, hp]

theorem setupRealtimeListener_rejected (w : World) (hdb : w.db = true)
    (hid : w.currentUserId ≠ "loading...")
    (hp : validCollectionPath (todosPath w.appId w.currentUserId) = false) :
    setupRealtimeListener w = w := by
  unfold setupRealtimeListener
  simp [hdb, hid, hp]

theorem setupRealtimeListener_not_ready (w : World)
    (h : w.db = false ∨ w.currentUserId = "loading...") :
    setupRealtimeListener w =
      { w with console := w.console ++
          ["Firebase or user ID not ready yet for real-time listener."] } := by
  unfold setupRealtimeListener
  rcases h with h | h <;> simp [h]

theorem setupRealtimeListener_frame (w : World) :
    (setupRealtimeListener w).appId = w.appId ∧ (setupRealtimeListener w).db = w.db
      ∧ (setupRealtimeListener w).authListener = w.authListener
      ∧ (setupRealtimeListener w).currentUserId = w.currentUserId
      ∧ (setupRealtimeListener w).userIdDisplay = w.userIdDisplay
      ∧ (setupRealtimeListener w).listeners.length ≤ w.listeners.length + 1
      ∧ ∃ new, (setupRealtimeListener w).requests = w.requests ++ new
          ∧ ∀ r ∈ new, r.path = todosPath w.appId w.currentUserId := by
  unfold setupRealtimeListener
  split
  · exact ⟨rfl, rfl, rfl, rfl, rfl, Nat.le_succ _, [], by simp, by simp⟩
  · dsimp only
    split
    · exact ⟨rfl, rfl, rfl, rfl, rfl, Nat.le_succ _, [], by simp, by simp⟩
    · exact ⟨rfl, rfl, rfl, rfl, rfl, by simp, [_], rfl, by simp [Request.path]⟩

theorem step_frame (w : World) (e : Event) :
    (step w e).appId = w.appId ∧ (step w e).db = w.db
      ∧ (step w e).authListener = w.authListener := by
  cases e with
  | authStateChanged user bits =>
    simp only [step]
    split
    · rw [onAuthStateChangedCallback_eq]
      obtain ⟨h1, h2, h3, _⟩ := setupRealtimeListener_frame
        { w with
          currentUserId := identityOf user bits
          userIdDisplay := statusOf user bits }
      exact ⟨h1, h2, h3⟩
    · exact ⟨rfl, rfl, rfl⟩
  | snapshot k => exact let h := step_quiet w (.snapshot k) (by simp); ⟨h.1, h.2.1, h.2.2.1⟩
  | snapshotError k msg =>
    exact let h := step_quiet w (.snapshotError k msg) (by simp); ⟨h.1, h.2.1, h.2.2.1⟩
  | input value => exact ⟨rfl, rfl, rfl⟩
  | submit now r => exact let h := step_quiet w (.submit now r) (by simp); ⟨h.1, h.2.1, h.2.2.1⟩
  | click i r => exact let h := step_quiet w (.click i r) (by simp); ⟨h.1, h.2.1, h.2.2.1⟩
  | contextmenu i r =>
    exact let h := step_quiet w (.contextmenu i r) (by simp); ⟨h.1, h.2.1, h.2.2.1⟩

theorem run_frame (w : World) (evs : List Event) :
    (run w evs).appId = w.appId ∧ (run w evs).db = w.db
      ∧ (run w evs).authListener = w.authListener := by
  induction evs generalizing w with
  | nil => exact ⟨rfl, rfl, rfl⟩
  | cons e es ih =>
    obtain ⟨h1, h2, h3⟩ := ih (step w e)
    obtain ⟨g1, g2, g3⟩ := step_frame w e
    exact ⟨h1.trans g1, h2.trans g2, h3.trans g3⟩

theorem session_ok_ready (env : Env) (evs : List Event) :
    (session env .ok evs).db = true ∧ (session env .ok evs).authListener = true :=
  let h := run_frame (initFirebase (pageLoad env) .ok) evs
  ⟨h.2.1, h.2.2⟩

/-! ## The auth-state callback -/

/-- What the auth-state callback does in a session whose initialisation succeeded:
the identity becomes the reported user id or else the generated UUID, the status
element shows it, and a subscription on the path derived from it is opened exactly when
the identity is not the string `loading...` and the SDK accepts the path. -/
theorem authCallback_effect (env : Env) (evs : List Event) (user : Option String)
    (bits : Nat) :
    (step (session env .ok evs) (.authStateChanged user bits)).currentUserId =
        identityOf user bits
      ∧ (step (session env .ok evs) (.authStateChanged user bits)).userIdDisplay =
        statusOf user bits
      ∧ (step (session env .ok evs) (.authStateChanged user bits)).listeners =
        (if identityOf user bits = "loading..." ∨
            validCollectionPath
              (todosPath (session env .ok evs).appId (identityOf user bits)) = false
         then (session env .ok evs).listeners
         else (session env .ok evs).listeners ++
           [todosPath (session env .ok evs).appId (identityOf user bits)])
      ∧ (step (session env .ok evs) (.authStateChanged user bits)).requests =
        (if identityOf user bits = "loading..." ∨
            validCollectionPath
              (todosPath (session env .ok evs).appId (identityOf user bits)) = false
         then (session env .ok evs).requests
         else (session env .ok evs).requests ++
           [Request.subscribe (todosPath (session env .ok evs).appId (identityOf user bits))]) := by
  obtain ⟨hdb, hl⟩ := session_ok_ready env evs
  generalize session env .ok evs = w at hdb hl ⊢
  have hs : step w (.authStateChanged user bits) =
      onAuthStateChangedCallback w user bits := by
    show (if w.authListener = true then _ else _) = _
    rw [if_pos hl]
  rw [hs, onAuthStateChangedCallback_eq]
  by_cases hid : identityOf user bits = "loading..."
  · rw [setupRealtimeListener_not_ready _ (Or.inr hid)]
    simp only [hid, true_or, if_true]
    exact ⟨trivial, trivial, trivial, trivial⟩
  · by_cases hp : validCollectionPath (todosPath w.appId (identityOf user bits)) = false
    · have hrej := setupRealtimeListener_rejected
        { w with currentUserId := identityOf user bits, userIdDisplay := statusOf user bits }
        hdb hid hp
      rw [hrej]
      simp only [hid, hp, false_or, if_true]
      exact ⟨trivial, trivial, trivial, trivial⟩
    · have hp2 : validCollectionPath (todosPath w.appId (identityOf user bits)) = true := by
        simpa using hp
      have hacc := setupRealtimeListener_ready
        { w with currentUserId := identityOf user bits, userIdDisplay := statusOf user bits }
        hdb hid hp2
      rw [hacc]
      have hc : ¬ (identityOf user bits = "loading..." ∨
          validCollectionPath (todosPath w.appId (identityOf user bits)) = false) :=
        fun h => h.elim hid hp
      rw [if_neg hc, if_neg hc]
      exact ⟨rfl, rfl, rfl, rfl⟩

/-- C10: the auth-state callback fires with a signed-in user whose id is the string
`loading...`.  The identity becomes that id and the status shows it, but the guard of
`setupRealtimeListener` takes the id for the initial placeholder: it logs that the
user id is not ready and no subscription is opened. -/
theorem authCallback_sentinel_uid_opens_nothing :
    (step (session emptyEnv .ok []) (.authStateChanged (some "loading...") 0)).currentUserId =
        "loading..."
      ∧ (step (session emptyEnv .ok []) (.authStateChanged (some "loading...") 0)).userIdDisplay =
        "User ID: loading..."
      ∧ (step (session emptyEnv .ok []) (.authStateChanged (some "loading...") 0)).listeners = []
      ∧ (step (session emptyEnv .ok []) (.authStateChanged (some "loading...") 0)).requests = []
      ∧ (step (session emptyEnv .ok []) (.authStateChanged (some "loading...") 0)).console =
        ["Firebase or user ID not ready yet for real-time listener."] := by
  decide

/-- A user id with a slash gives a path of six segments and an empty namespace gives a
path with an empty segment; `collection` rejects both and no subscription is opened,
while for user `alice` in the default namespace one is. -/
theorem authCallback_rejected_path_opens_nothing :
    (step (session emptyEnv .ok []) (.authStateChanged (some "a/b") 0)).currentUserId = "a/b"
      ∧ (step (session emptyEnv .ok []) (.authStateChanged (some "a/b") 0)).listeners = []
      ∧ (step (session { emptyEnv with appId := some "" } .ok [])
          (.authStateChanged (some "alice") 0)).listeners = []
      ∧ (step (session emptyEnv .ok []) (.authStateChanged (some "alice") 0)).listeners =
        ["artifacts/default-app-id/users/alice/todos"] := by
  decide

/-! ## Subscriptions -/

theorem authCount_cons (e : Event) (evs : List Event) :
    authCount (e :: evs) = authCount [e] + authCount evs := by
  cases e <;> simp [authCount]; omega

theorem step_listeners_le (w : World) (e : Event) :
    (step w e).listeners.length ≤ w.listeners.length + authCount [e] := by
  cases e with
  | authStateChanged user bits =>
    simp only [step, authCount]
    split
    · rw [onAuthStateChangedCallback_eq]
      exact (setupRealtimeListener_frame _).2.2.2.2.2.1
    · omega
  | snapshot k => rw [(step_quiet w (.snapshot k) (by simp)).2.2.2.2.1]; omega
  | snapshotError k msg =>
    rw [(step_quiet w (.snapshotError k msg) (by simp)).2.2.2.2.1]; omega
  | input value => rw [(step_quiet w (.input value) (by simp)).2.2.2.2.1]; omega
  | submit now r => rw [(step_quiet w (.submit now r) (by simp)).2.2.2.2.1]; omega
  | click i r => rw [(step_quiet w (.click i r) (by simp)).2.2.2.2.1]; omega
  | contextmenu i r => rw [(step_quiet w (.contextmenu i r) (by simp)).2.2.2.2.1]; omega

theorem run_listeners_le (w : World) (evs : List Event) :
    (run w evs).listeners.length ≤ w.listeners.length + authCount evs := by
  induction evs generalizing w with
  | nil => simp [run, authCount]
  | cons e es ih =>
    have h1 := ih (step w e)
    have h2 := step_listeners_le w e
    rw [authCount_cons]
    show (run (step w e) es).listeners.length ≤ _
    omega

/-- C8, as amended: subscriptions are opened only by the auth-state callback, at most
one per firing, so in every state of a page load the number of active subscriptions is
at most the number of auth-state callbacks fired so far; in particular at most one is
active while at most one callback has fired. -/
theorem subscriptions_bounded_by_auth_callbacks (env : Env) (o : InitOutcome)
    (evs : List Event) :
    (session env o evs).listeners.length ≤ authCount evs := by
  have h := run_listeners_le (initFirebase (pageLoad env) o) evs
  have h0 : (initFirebase (pageLoad env) o).listeners = [] := by cases o <;> rfl
  rw [h0] at h
  simpa [session] using h

/-- C8, counterexample: the auth-state callback fires for user `alice` and later
reports no user; the first subscription is not closed and two are active. -/
theorem two_auth_callbacks_two_subscriptions :
    ¬ (session emptyEnv .ok
        [.authStateChanged (some "alice") 0, .authStateChanged none 0]).listeners.length ≤ 1 := by
  decide

/-! ## Collection paths -/

theorem step_same_identity (w : World) (e : Event) (u : String)
    (hu : w.currentUserId = u) (he : e.reportsIdentity u = true) :
    (step w e).currentUserId = u ∧ (step w e).appId = w.appId
      ∧ ∃ new, (step w e).requests = w.requests ++ new
          ∧ ∀ r ∈ new, r.path = todosPath w.appId u := by
  subst hu
  by_cases hq : ∀ user bits, e ≠ .authStateChanged user bits
  · obtain ⟨h1, _, _, h4, _, h6⟩ := step_quiet w e hq
    exact ⟨h4, h1, h6⟩
  · push_neg at hq
    obtain ⟨user, bits, rfl⟩ := hq
    have hid : identityOf user bits = w.currentUserId := by
      cases user <;> simpa [Event.reportsIdentity, identityOf] using he
    simp only [step]
    split
    · rw [onAuthStateChangedCallback_eq]
      obtain ⟨h1, _, _, h4, _, _, h7⟩ := setupRealtimeListener_frame
        { w with
          currentUserId := identityOf user bits
          userIdDisplay := statusOf user bits }
      refine ⟨h4.trans hid, h1, ?_⟩
      obtain ⟨new, hn1, hn2⟩ := h7
      refine ⟨new, hn1, ?_⟩
      intro r hr
      rw [hn2 r hr]
      show todosPath w.appId (identityOf user bits) = _
      rw [hid]
    · exact ⟨rfl, rfl, [], by simp, by simp⟩

/-- C7, as amended: every subscription, create, update and delete request is issued
on the path derived from the namespace and the identity current at that moment; so
over any sequence of events in which every auth-state callback reports the identity
the session already has, the identity stays and all requests issued use that one
path. -/
theorem requests_follow_identity (w : World) (evs : List Event) (u : String)
    (hu : w.currentUserId = u) (hevs : ∀ e ∈ evs, e.reportsIdentity u = true) :
    (run w evs).currentUserId = u
      ∧ ∃ new, (run w evs).requests = w.requests ++ new
          ∧ ∀ r ∈ new, r.path = todosPath w.appId u := by
  induction evs generalizing w with
  | nil => exact ⟨hu, [], by simp [run], by simp⟩
  | cons e es ih =>
    obtain ⟨h1, h2, new1, h3, h4⟩ :=
      step_same_identity w e u hu (hevs e (List.mem_cons_self e es))
    obtain ⟨g1, new2, g3, g4⟩ :=
      ih (step w e) h1 (fun x hx => hevs x (List.mem_cons_of_mem e hx))
    refine ⟨g1, new1 ++ new2, ?_, ?_⟩
    · show (run (step w e) es).requests = _
      rw [g3, h3, List.append_assoc]
    · intro r hr
      rcases List.mem_append.mp hr with hr | hr
      · exact h4 r hr
      · rw [g4 r hr, h2]

theorem requests_follow_identity_witness :
    (aliceWorld " Buy milk ").currentUserId = "alice"
      ∧ (run (aliceWorld " Buy milk ")
          [.submit 7 ⟨none, "d1"⟩, .snapshot 0, .click 0 ⟨none, ""⟩,
           .authStateChanged (some "alice") 1, .contextmenu 0 ⟨none, ""⟩]).requests.length = 5
      ∧ ∃ new, (run (aliceWorld " Buy milk ")
          [.submit 7 ⟨none, "d1"⟩, .snapshot 0, .click 0 ⟨none, ""⟩,
           .authStateChanged (some "alice") 1, .contextmenu 0 ⟨none, ""⟩]).requests =
            (aliceWorld " Buy milk ").requests ++ new
          ∧ ∀ r ∈ new, r.path = todosPath (aliceWorld " Buy milk ").appId "alice" :=
  ⟨by decide, by decide,
    (requests_follow_identity (aliceWorld " Buy milk ")
      [.submit 7 ⟨none, "d1"⟩, .snapshot 0, .click 0 ⟨none, ""⟩,
       .authStateChanged (some "alice") 1, .contextmenu 0 ⟨none, ""⟩] "alice"
      (by decide) (by decide)).2⟩

/-- C7, counterexample: `alice` is signed in and creates a todo, then the auth-state
callback reports no user and a second todo is created; the requests of this one
session address two different collection paths. -/
theorem identity_change_splits_paths :
    ¬ SamePath (session emptyEnv .ok
        [.authStateChanged (some "alice") 0, .input "Buy milk", .submit 7 ⟨none, "d1"⟩,
         .authStateChanged none 0, .input "Buy eggs", .submit 8 ⟨none, "d2"⟩]).requests := by
  decide

/-! ## Uniqueness of ids is kept by every session -/

theorem addDoc_WF {st st1 : Store} {path : String} {data : TodoData} {r : Reply}
    (hwf : st.WF) (h : addDoc st path data r = .ok st1) : st1.WF := by
  obtain ⟨hfresh, rfl⟩ := addDoc_ok h
  unfold Store.WF at hwf ⊢
  rw [List.map_append, List.nodup_append]
  refine ⟨hwf, by simp, ?_⟩
  intro k hk hk2
  simp only [List.map_cons, List.map_nil, List.mem_singleton] at hk2
  subst hk2
  obtain ⟨d, hd, hkey⟩ := List.mem_map.mp hk
  have hp : d.path = path := congrArg Prod.fst hkey
  have hi : d.id = r.newId := congrArg Prod.snd hkey
  have : st.has path r.newId = true := by
    rw [← hp, ← hi]
    exact Store.has_of_mem hd
  rw [hfresh] at this
  cases this

theorem updateDoc_WF {st st1 : Store} {path id : String} {c : Bool} {r : Reply}
    (hwf : st.WF) (h : updateDoc st path id c r = .ok st1) : st1.WF := by
  unfold updateDoc at h
  split at h
  · cases h
  · split at h
    · cases h
      unfold Store.WF at hwf ⊢
      rw [List.map_map]
      have : ((fun d : Doc => (d.path, d.id)) ∘ setCompleted path id c) =
          fun d : Doc => (d.path, d.id) := by
        funext d
        simp only [Function.comp, setCompleted]
        split <;> rfl
      rw [this]
      exact hwf
    · cases h

theorem deleteDoc_WF {st st1 : Store} {path id : String} {r : Reply}
    (hwf : st.WF) (h : deleteDoc st path id r = .ok st1) : st1.WF := by
  unfold deleteDoc at h
  split at h
  · cases h
  · cases h
    exact List.Nodup.sublist ((List.filter_sublist st).map _) hwf

theorem step_store_WF (w : World) (e : Event) (hwf : w.store.WF) : (step w e).store.WF := by
  have hup : ∀ id c r, (updateTodoStatusInFirestore w id c r).store.WF := by
    intro id c r
    unfold updateTodoStatusInFirestore
    split
    · exact hwf
    · dsimp only
      split
      · rename_i st hst
        exact updateDoc_WF hwf hst
      · exact hwf
  cases e with
  | authStateChanged user bits =>
    simp only [step]
    split
    · rw [onAuthStateChangedCallback_eq]
      unfold setupRealtimeListener
      split
      · exact hwf
      · dsimp only
        split <;> exact hwf
    · exact hwf
  | snapshot k =>
    simp only [step]
    split
    · unfold onSnapshotNext
      rw [foldl_addTodoToUI_eq]
      split <;> exact hwf
    · exact hwf
  | snapshotError k msg =>
    simp only [step]
    split <;> exact hwf
  | input value => exact hwf
  | submit now r =>
    simp only [step]
    unfold submitHandler
    dsimp only
    split
    · split
      · exact hwf
      · split
        · rename_i st hst
          exact addDoc_WF hwf hst
        · exact hwf
    · exact hwf
  | click i r =>
    simp only [step]
    split
    · exact hup _ _ r
    · exact hwf
  | contextmenu i r =>
    simp only [step]
    split
    · unfold contextmenuHandler deleteTodoFromFirestore
      split
      · exact hwf
      · dsimp only
        split
        · rename_i st hst
          exact deleteDoc_WF hwf hst
        · exact hwf
    · exact hwf

theorem session_store_WF (env : Env) (o : InitOutcome) (evs : List Event)
    (hwf : env.store.WF) : (session env o evs).store.WF := by
  have h0 : (initFirebase (pageLoad env) o).store.WF := by cases o <;> exact hwf
  unfold session
  generalize initFirebase (pageLoad env) o = w at h0
  induction evs generalizing w with
  | nil => exact h0
  | cons e es ih => exact ih (step w e) (step_store_WF w e h0)

end TodoList
